import Mathlib

/-
  Verification of the firkin image-sampling core.

  Shallow embedding of the Rust sources:
    src/units.rs    -- the unit-tagged pixel-distance newtype and the PX token
    src/image.rs    -- the Image trait, OwnedImage and MemoryMappedImage
    src/distort.rs  -- pixel_or_black and the bilinear sampler sample_image

  Machine integers (isize) are modelled as Int, with the `as usize` cast made
  explicit where the source performs it.  The real-valued (f64) intermediate
  domain of the sampler is modelled by the rationals: every operation the
  sampler performs (floor, subtraction from an integer, products and sums of
  tap values and weights, clamping, rounding) is stated over that exact
  real-valued domain, matching the numeric semantics the design document
  assigns to the sampler (real-valued intermediates, rounding only at the end).
  Pixel samples of type i16/i32 are modelled as Int.
-/

namespace Firkin

/-! ## Units (src/units.rs)

The dimensioned wrapper Pixel<V> generated by make_units, restricted to the
operations this crate uses.  The field is called value_unsafe in the
dimensioned crate; here it is named value. -/

structure Pixel (α : Type) where
  value : α
deriving DecidableEq, Repr

/-- The conversion impl Mul<PX> for the value type: n * PX = Pixel::new(n). -/
def PXmul {α : Type} (n : α) : Pixel α := ⟨n⟩

/-- The conversion impl Div<PX> for Pixel: p / PX = p.value_unsafe. -/
def PXdiv {α : Type} (p : Pixel α) : α := p.value

/-- Pixel::new (dimensioned constructor). -/
def Pixel.new {α : Type} (n : α) : Pixel α := ⟨n⟩

/-- Same-unit addition on pixel distances (derived Add of dimensioned). -/
instance {α : Type} [Add α] : Add (Pixel α) := ⟨fun p q => ⟨p.value + q.value⟩⟩

/-- Derived PartialOrd of dimensioned: compare the wrapped values. -/
instance {α : Type} [LT α] : LT (Pixel α) := ⟨fun p q => p.value < q.value⟩

instance {α : Type} [LE α] : LE (Pixel α) := ⟨fun p q => p.value ≤ q.value⟩

/-- type DistPx = Pixel<isize> : whole-pixel distances. -/
abbrev DistPx := Pixel Int

/-- type DistPxFrac = Pixel<f64> : fractional (sub-pixel) distances, with the
real-valued f64 domain modelled by the rationals. -/
abbrev DistPxFrac := Pixel ℚ

instance (p q : DistPx) : Decidable (p < q) := Int.decLt p.value q.value

instance (p q : DistPx) : Decidable (p ≤ q) := Int.decLe p.value q.value

@[simp] theorem Pixel.lt_iff {α : Type} [LT α] (p q : Pixel α) :
    p < q ↔ p.value < q.value := Iff.rfl

@[simp] theorem Pixel.le_iff {α : Type} [LE α] (p q : Pixel α) :
    p ≤ q ↔ p.value ≤ q.value := Iff.rfl

@[simp] theorem Pixel.add_value {α : Type} [Add α] (p q : Pixel α) :
    (p + q).value = p.value + q.value := rfl

/-! ## Machine-integer casts -/

/-- The Rust cast of a 64-bit isize value to usize: reduction modulo 2^64
(two's-complement reinterpretation). -/
def isizeToUsize (i : Int) : ℕ := (i % (2 : Int) ^ 64).toNat

/-- The Rust saturating cast of an f64 integer value to i16 (the value the
sampler casts is always already in range, so this cast is exercised only as
the identity). -/
def i16Sat (n : Int) : Int := max (-32768) (min 32767 n)

/-- Rust f64::round: round to the nearest integer, ties away from zero. -/
def f64Round (q : ℚ) : Int := if 0 ≤ q then ⌊q + 1 / 2⌋ else ⌈q - 1 / 2⌉

/-- num::clamp from the num crate:
if input < min then min else if input > max then max else input. -/
def clamp (input lo hi : ℚ) : ℚ := if input < lo then lo else if hi < input then hi else input

/-! ## The image abstraction (src/image.rs)

trait Image<PixelType> : Index<(DistPx, DistPx)> with dimensions() and
pixels(); the Index impl is the index field. -/

class Image (I : Type) (α : outParam Type) where
  index : I → DistPx × DistPx → α
  dimensions : I → DistPx × DistPx
  pixels : I → List α

/-! ## Owned image -/

/-- OwnedImage: width, height and an exclusively owned pixel buffer. -/
structure OwnedImage (α : Type) where
  width : DistPx
  height : DistPx
  pixels : List α
deriving DecidableEq, Repr

/-- OwnedImage::new: allocate ((width / PX) * (height / PX)) as usize
zero-valued samples. -/
def OwnedImage.new {α : Type} [Zero α] (width height : DistPx) : OwnedImage α :=
  { width := width
    height := height
    pixels := List.replicate (isizeToUsize (PXdiv width * PXdiv height)) 0 }

/-- The Index impl for OwnedImage: row-major offset
((y / PX * (self.width / PX)) + (x / PX)) as usize into the buffer.  The Rust
indexing primitive panics out of range; in-bounds behaviour is total and is
modelled with getD (the default is never reached at a valid offset). -/
def OwnedImage.index {α : Type} [Inhabited α] (img : OwnedImage α)
    (coords : DistPx × DistPx) : α :=
  let (x, y) := coords
  let offset := isizeToUsize (PXdiv y * PXdiv img.width + PXdiv x)
  img.pixels.getD offset default

/-- The IndexMut impl for OwnedImage followed by a store: writing v at the
row-major offset of (x, y).  List.set leaves the list unchanged out of range,
where the Rust primitive panics; claims about it are stated in bounds. -/
def OwnedImage.set {α : Type} (img : OwnedImage α) (coords : DistPx × DistPx)
    (v : α) : OwnedImage α :=
  let (x, y) := coords
  let offset := isizeToUsize (PXdiv y * PXdiv img.width + PXdiv x)
  { img with pixels := img.pixels.set offset v }

/-- MutableImage::fill: overwrite every element of the buffer with v. -/
def OwnedImage.fill {α : Type} (img : OwnedImage α) (v : α) : OwnedImage α :=
  { img with pixels := img.pixels.map fun _ => v }

instance instImageOwned {α : Type} [Inhabited α] : Image (OwnedImage α) α where
  index := OwnedImage.index
  dimensions img := (img.width, img.height)
  pixels img := img.pixels

/-! ## Memory-mapped image -/

/-- MemoryMappedImage: declared dimensions plus the pixel view into the
mapping.  The Mmap handle itself only carries the mapped bytes; the pixel
view derived from it is the pixels field. -/
structure MemoryMappedImage (α : Type) where
  width : DistPx
  height : DistPx
  pixels : List α
deriving DecidableEq, Repr

/-- MemoryMappedImage::map_file.  Mmap::open_path is modelled by the mapped
argument: an error when the file cannot be opened or mapped, otherwise the
mapped bytes.  mem::size_of::<PixelType>() is the parameter s and the unsafe
slice::from_raw_parts reinterpretation of the mapped bytes as map.len / s
pixel samples is modelled by decoding consecutive s-byte chunks with the
pixel type's native decoding function decode.  The expected_size computation
((w / PX) * (h / PX)) as usize * mem::size_of::<PixelType>() happens in
usize arithmetic: the product is reduced modulo 2^64 (the release-build wrap
semantics; a debug build would panic at an overflowing multiply instead of
wrapping, which a value-level model cannot express). -/
def MemoryMappedImage.map_file {α : Type} (decode : List (Fin 256) → α) (s : ℕ)
    (mapped : Except String (List (Fin 256))) (width height : DistPx) :
    Except String (MemoryMappedImage α) :=
  match mapped with
  | .error e => .error e
  | .ok map =>
    let expected_size := isizeToUsize (PXdiv width * PXdiv height) * s % 2 ^ 64
    if map.length ≠ expected_size then .error ("Unexpected size")
    else
      .ok { width := width
            height := height
            pixels := (List.range (map.length / s)).map
              fun k => decode ((map.drop (k * s)).take s) }

/-- The Index impl for MemoryMappedImage: identical row-major offset
computation to the owned image. -/
def MemoryMappedImage.index {α : Type} [Inhabited α] (img : MemoryMappedImage α)
    (coords : DistPx × DistPx) : α :=
  let (x, y) := coords
  let offset := isizeToUsize (PXdiv y * PXdiv img.width + PXdiv x)
  img.pixels.getD offset default

instance instImageMapped {α : Type} [Inhabited α] : Image (MemoryMappedImage α) α where
  index := MemoryMappedImage.index
  dimensions img := (img.width, img.height)
  pixels img := img.pixels

/-! ## The bilinear sampler (src/distort.rs) -/

/-- pixel_or_black: the bounds-checked fetch.  Returns 0.0 for any coordinate
outside [0, width) x [0, height), otherwise the stored pixel widened to the
real-valued domain. -/
def pixel_or_black {I : Type} [Image I Int] (i : I) (x y : DistPx) : ℚ :=
  let zero : DistPx := Pixel.new 0
  let (width, height) := Image.dimensions i
  if x < zero ∨ y < zero ∨ width ≤ x ∨ height ≤ y then 0
  else ((Image.index i (x, y) : Int) : ℚ)

/-- sample_image: bilinear filtering at the fractional coordinate (u, v).
Mirrors src/distort.rs lines 13-58: strip units, floor to the anchor (x0, y0),
form the per-axis contributions, fetch the four taps through pixel_or_black,
blend, then clamp to [0, i16::max_value()], round and cast back to i16. -/
def sample_image {I : Type} [Image I Int] (i : I) (u v : DistPxFrac) : Int :=
  let one : DistPx := Pixel.new 1
  let max_value : ℚ := 32767
  let u0 := PXdiv u
  let v0 := PXdiv v
  let x0 : Int := ⌊u0⌋
  let y0 : Int := ⌊v0⌋
  let col_1_contrib : ℚ := u0 - (x0 : ℚ)
  let row_1_contrib : ℚ := v0 - (y0 : ℚ)
  let col_0_contrib : ℚ := 1 - col_1_contrib
  let row_0_contrib : ℚ := 1 - row_1_contrib
  let x : DistPx := PXmul x0
  let y : DistPx := PXmul y0
  let a := pixel_or_black i x y
  let b := pixel_or_black i (x + one) y
  let c := pixel_or_black i x (y + one)
  let d := pixel_or_black i (x + one) (y + one)
  let new_pixel :=
    (a * col_0_contrib + b * col_1_contrib) * row_0_contrib +
    (c * col_0_contrib + d * col_1_contrib) * row_1_contrib
  i16Sat (f64Round (clamp new_pixel 0 max_value))

/-- The identity_sample test of src/distort.rs, replayed on the embedding. -/
example :
    sample_image
      (OwnedImage.mk (Pixel.new 3) (Pixel.new 3)
        [0, 0, 0, 0, 2048, 0, 0, 0, 0] : OwnedImage Int)
      (PXmul 1) (PXmul 1) = 2048 := by
  simp only [sample_image, pixel_or_black, Image.index, Image.dimensions,
    instImageOwned, OwnedImage.index, PXdiv, PXmul, Pixel.new, isizeToUsize,
    i16Sat, f64Round, clamp]
  norm_num
  try simp
  try norm_num

/-- One case of the x_axis_averaging test of src/distort.rs. -/
example :
    sample_image
      (OwnedImage.mk (Pixel.new 3) (Pixel.new 3)
        [0, 1024, 0, 0, 1024, 0, 0, 1024, 0] : OwnedImage Int)
      (PXmul (1 / 4)) (PXmul 1) = 256 := by
  simp only [sample_image, pixel_or_black, Image.index, Image.dimensions,
    instImageOwned, OwnedImage.index, PXdiv, PXmul, Pixel.new, isizeToUsize,
    i16Sat, f64Round, clamp]
  norm_num
  try simp
  try norm_num

/-! ## Helper lemmas -/

theorem PXdiv_PXmul {α : Type} (n : α) : PXdiv (PXmul n) = n := rfl

theorem isizeToUsize_eq_toNat {i : Int} (h0 : 0 ≤ i) (h1 : i < 2 ^ 64) :
    isizeToUsize i = i.toNat := by
  unfold isizeToUsize
  rw [Int.emod_eq_of_lt h0 h1]

theorem clamp_eq_self {q lo hi : ℚ} (h0 : lo ≤ q) (h1 : q ≤ hi) :
    clamp q lo hi = q := by
  unfold clamp
  split_ifs with ha hb
  · linarith
  · linarith
  · rfl

theorem clamp_mem (q : ℚ) {lo hi : ℚ} (h : lo ≤ hi) :
    lo ≤ clamp q lo hi ∧ clamp q lo hi ≤ hi := by
  unfold clamp
  split_ifs <;> constructor <;> linarith

theorem f64Round_intCast (n : Int) : f64Round ((n : ℚ)) = n := by
  unfold f64Round
  split_ifs with h
  · rw [Int.floor_int_add]
    norm_num
  · rw [sub_eq_add_neg, add_comm, Int.ceil_add_int]
    norm_num

theorem f64Round_nonneg {q : ℚ} (h : 0 ≤ q) : 0 ≤ f64Round q := by
  unfold f64Round
  rw [if_pos h]
  exact Int.le_floor.mpr (by push_cast; linarith)

theorem f64Round_le {q : ℚ} (hq : 0 ≤ q) {m : Int} (h : q ≤ (m : ℚ)) :
    f64Round q ≤ m := by
  unfold f64Round
  rw [if_pos hq]
  have hlt : ⌊q + 1 / 2⌋ < m + 1 := Int.floor_lt.mpr (by push_cast; linarith)
  omega

theorem round_clamp_mem (q : ℚ) :
    0 ≤ f64Round (clamp q 0 32767) ∧ f64Round (clamp q 0 32767) ≤ 32767 := by
  obtain ⟨h0, h1⟩ := clamp_mem q (show (0 : ℚ) ≤ 32767 by norm_num)
  refine ⟨f64Round_nonneg h0, f64Round_le h0 ?_⟩
  exact_mod_cast h1

theorem i16Sat_eq {n : Int} (h0 : -32768 ≤ n) (h1 : n ≤ 32767) : i16Sat n = n := by
  unfold i16Sat
  rw [min_eq_right h1, max_eq_right (by omega)]

/-- The unclamped bilinear blend of the four taps: the new_pixel value of
src/distort.rs lines 34 to 55, written as one expression in the bare
destination coordinates u0 = u / PX and v0 = v / PX. -/
def bilinear {I : Type} [Image I Int] (i : I) (u0 v0 : ℚ) : ℚ :=
  (pixel_or_black i (PXmul ⌊u0⌋) (PXmul ⌊v0⌋) * (1 - (u0 - ((⌊u0⌋ : Int) : ℚ))) +
   pixel_or_black i (PXmul (⌊u0⌋ + 1)) (PXmul ⌊v0⌋) * (u0 - ((⌊u0⌋ : Int) : ℚ))) *
    (1 - (v0 - ((⌊v0⌋ : Int) : ℚ))) +
  (pixel_or_black i (PXmul ⌊u0⌋) (PXmul (⌊v0⌋ + 1)) * (1 - (u0 - ((⌊u0⌋ : Int) : ℚ))) +
   pixel_or_black i (PXmul (⌊u0⌋ + 1)) (PXmul (⌊v0⌋ + 1)) * (u0 - ((⌊u0⌋ : Int) : ℚ))) *
    (v0 - ((⌊v0⌋ : Int) : ℚ))

/-- Helper: sample_image unfolded into blend, clamp, round and cast. -/
theorem sample_image_unfold {I : Type} [Image I Int] (i : I) (u v : DistPxFrac) :
    sample_image i u v =
      i16Sat (f64Round (clamp (bilinear i (PXdiv u) (PXdiv v)) 0 32767)) := rfl

/-! ## The claims -/

/-- C9: for every bare numeric value n of any representation, multiplying by
the pixel unit token and dividing by it again recovers n exactly:
(n * PX) / PX = n. -/
theorem px_unit_roundtrip {α : Type} (n : α) : PXdiv (PXmul n) = n := rfl

/-- C1: for every image and fractional coordinate (u, v), sample_image
returns the rounded, clamped value of
((A (1 - fx) + B fx) (1 - fy)) + ((C (1 - fx) + D fx) fy), where
x0 = floor u, y0 = floor v, fx = u - x0, fy = v - y0 and the four taps
A = (x0, y0), B = (x0+1, y0), C = (x0, y0+1), D = (x0+1, y0+1) are fetched
through the zero-for-out-of-bounds fetch pixel_or_black, all intermediate
arithmetic taking place in the exact real-valued domain. -/
theorem sample_image_bilinear_formula {I : Type} [Image I Int] (img : I)
    (u v : ℚ) :
    sample_image img (PXmul u) (PXmul v) =
      f64Round (clamp
        ((pixel_or_black img (PXmul ⌊u⌋) (PXmul ⌊v⌋) * (1 - (u - ((⌊u⌋ : Int) : ℚ))) +
          pixel_or_black img (PXmul (⌊u⌋ + 1)) (PXmul ⌊v⌋) * (u - ((⌊u⌋ : Int) : ℚ))) *
           (1 - (v - ((⌊v⌋ : Int) : ℚ))) +
         (pixel_or_black img (PXmul ⌊u⌋) (PXmul (⌊v⌋ + 1)) * (1 - (u - ((⌊u⌋ : Int) : ℚ))) +
          pixel_or_black img (PXmul (⌊u⌋ + 1)) (PXmul (⌊v⌋ + 1)) * (u - ((⌊u⌋ : Int) : ℚ))) *
           (v - ((⌊v⌋ : Int) : ℚ)))
        0 32767) := by
  have hmem := round_clamp_mem (bilinear img u v)
  have h1 : sample_image img (PXmul u) (PXmul v) =
      i16Sat (f64Round (clamp (bilinear img u v) 0 32767)) :=
    sample_image_unfold img (PXmul u) (PXmul v)
  rw [h1, i16Sat_eq (by omega) hmem.2]
  rfl

/-- C10: the sampler output always lies in [0, 32767]: the lower clamp bound
is the fixed zero, not the minimum of the i16 pixel type, so negative
interpolation results map to 0 and the result is never negative. -/
theorem sample_image_output_range {I : Type} [Image I Int] (img : I)
    (u v : DistPxFrac) :
    0 ≤ sample_image img u v ∧ sample_image img u v ≤ 32767 := by
  have hmem := round_clamp_mem (bilinear img (PXdiv u) (PXdiv v))
  rw [sample_image_unfold, i16Sat_eq (by omega) hmem.2]
  exact hmem

/-- The final step of the sampler as claim C3 reads it: clamping to the full
representable range of i16, [-32768, 32767], instead of the [0, 32767] the
implementation uses.  Written from the claim wording for comparison with
sample_image. -/
def sample_image_claimed_i16_clamp {I : Type} [Image I Int] (i : I)
    (u v : DistPxFrac) : Int :=
  i16Sat (f64Round (clamp (bilinear i (PXdiv u) (PXdiv v)) (-32768) 32767))

/-- C3 counterexample: on a 1 x 1 image holding -1000, sampled at (0, 0), the
interpolation result is -1000; clamping to the representable range of i16
would keep -1000, but sample_image returns 0: the lower clamp bound of the
implementation is 0, not the minimum of i16. -/
theorem sample_image_clamp_counterexample :
    sample_image
        (OwnedImage.mk (Pixel.new 1) (Pixel.new 1) [-1000] : OwnedImage Int)
        (PXmul 0) (PXmul 0) = 0 ∧
    sample_image_claimed_i16_clamp
        (OwnedImage.mk (Pixel.new 1) (Pixel.new 1) [-1000] : OwnedImage Int)
        (PXmul 0) (PXmul 0) = -1000 := by
  constructor
  · simp only [sample_image, pixel_or_black, Image.index, Image.dimensions,
      instImageOwned, OwnedImage.index, PXdiv, PXmul, Pixel.new, isizeToUsize,
      i16Sat, f64Round, clamp]
    norm_num
    try simp
    try norm_num
  · simp only [sample_image_claimed_i16_clamp, bilinear, pixel_or_black,
      Image.index, Image.dimensions, instImageOwned, OwnedImage.index, PXdiv,
      PXmul, Pixel.new, isizeToUsize, i16Sat, f64Round, clamp]
    norm_num
    try simp
    try norm_num
    rw [Int.ceil_neg]
    norm_num

/-- C3 (amended): the final step of sample_image clamps the real-valued
interpolation result to [0, 32767] (zero up to the maximum of i16, not the
full signed range of i16), rounds to nearest with ties away from zero, and
casts back to i16 (that cast being the identity, since the clamped, rounded
value is already representable). -/
theorem sample_image_clamp_round_cast {I : Type} [Image I Int] (img : I)
    (u v : DistPxFrac) :
    sample_image img u v =
      f64Round (clamp (bilinear img (PXdiv u) (PXdiv v)) 0 32767) := by
  have hmem := round_clamp_mem (bilinear img (PXdiv u) (PXdiv v))
  rw [sample_image_unfold, i16Sat_eq (by omega) hmem.2]

/-! ## Bounds helpers for the fetch and the row-major offset -/

theorem pixel_or_black_in_bounds {I : Type} [Image I Int] (i : I) (x y : DistPx)
    (hx0 : 0 ≤ x.value) (hx1 : x.value < (Image.dimensions i).1.value)
    (hy0 : 0 ≤ y.value) (hy1 : y.value < (Image.dimensions i).2.value) :
    pixel_or_black i x y = ((Image.index i (x, y) : Int) : ℚ) := by
  have hcond : ¬(x < (Pixel.new 0 : DistPx) ∨ y < (Pixel.new 0 : DistPx) ∨
      (Image.dimensions i).1 ≤ x ∨ (Image.dimensions i).2 ≤ y) := by
    rintro (hc | hc | hc | hc)
    · exact absurd hc (not_lt.mpr hx0)
    · exact absurd hc (not_lt.mpr hy0)
    · exact absurd hc (not_le.mpr hx1)
    · exact absurd hc (not_le.mpr hy1)
  show (if x < (Pixel.new 0 : DistPx) ∨ y < (Pixel.new 0 : DistPx) ∨
      (Image.dimensions i).1 ≤ x ∨ (Image.dimensions i).2 ≤ y
      then (0 : ℚ) else ((Image.index i (x, y) : Int) : ℚ)) = _
  rw [if_neg hcond]

theorem pixel_or_black_out_of_bounds {I : Type} [Image I Int] (i : I)
    (x y : DistPx)
    (h : x.value < 0 ∨ y.value < 0 ∨ (Image.dimensions i).1.value ≤ x.value ∨
      (Image.dimensions i).2.value ≤ y.value) :
    pixel_or_black i x y = 0 := by
  have h' : x < (Pixel.new 0 : DistPx) ∨ y < (Pixel.new 0 : DistPx) ∨
      (Image.dimensions i).1 ≤ x ∨ (Image.dimensions i).2 ≤ y := h
  show (if x < (Pixel.new 0 : DistPx) ∨ y < (Pixel.new 0 : DistPx) ∨
      (Image.dimensions i).1 ≤ x ∨ (Image.dimensions i).2 ≤ y
      then (0 : ℚ) else ((Image.index i (x, y) : Int) : ℚ)) = 0
  rw [if_pos h']

theorem rowMajor_offset_lt {w h x y : Int} (hx0 : 0 ≤ x) (hx1 : x < w)
    (hy0 : 0 ≤ y) (hy1 : y < h) :
    0 ≤ y * w + x ∧ y * w + x < w * h := by
  have hw0 : 0 ≤ w := le_trans hx0 hx1.le
  have h1 : 0 ≤ y * w := mul_nonneg hy0 hw0
  constructor
  · linarith
  · have h2 : (y + 1) * w ≤ h * w := mul_le_mul_of_nonneg_right (by linarith) hw0
    calc y * w + x < y * w + w := by linarith
    _ = (y + 1) * w := by ring
    _ ≤ h * w := h2
    _ = w * h := mul_comm h w

theorem owned_index_getD {α : Type} [Inhabited α] (img : OwnedImage α)
    (x y : Int) (hwh : PXdiv img.width * PXdiv img.height < 2 ^ 64)
    (hx0 : 0 ≤ x) (hx1 : x < PXdiv img.width)
    (hy0 : 0 ≤ y) (hy1 : y < PXdiv img.height) :
    Image.index img (PXmul x, PXmul y) =
      img.pixels.getD (y * PXdiv img.width + x).toNat default := by
  obtain ⟨ho0, ho1⟩ := rowMajor_offset_lt hx0 hx1 hy0 hy1
  show img.pixels.getD (isizeToUsize (y * PXdiv img.width + x)) default = _
  rw [isizeToUsize_eq_toNat ho0 (lt_trans ho1 hwh)]

theorem mapped_index_getD {α : Type} [Inhabited α] (img : MemoryMappedImage α)
    (x y : Int) (hwh : PXdiv img.width * PXdiv img.height < 2 ^ 64)
    (hx0 : 0 ≤ x) (hx1 : x < PXdiv img.width)
    (hy0 : 0 ≤ y) (hy1 : y < PXdiv img.height) :
    Image.index img (PXmul x, PXmul y) =
      img.pixels.getD (y * PXdiv img.width + x).toNat default := by
  obtain ⟨ho0, ho1⟩ := rowMajor_offset_lt hx0 hx1 hy0 hy1
  show img.pixels.getD (isizeToUsize (y * PXdiv img.width + x)) default = _
  rw [isizeToUsize_eq_toNat ho0 (lt_trans ho1 hwh)]

/-- Helper: map_file on successfully mapped bytes, as an if-then-else. -/
theorem map_file_eval {α : Type} (decode : List (Fin 256) → α) (s : ℕ)
    (data : List (Fin 256)) (width height : DistPx) :
    MemoryMappedImage.map_file decode s (.ok data) width height =
      if data.length ≠ isizeToUsize (PXdiv width * PXdiv height) * s % 2 ^ 64
      then .error ("Unexpected size")
      else .ok ⟨width, height, (List.range (data.length / s)).map
        fun k => decode ((data.drop (k * s)).take s)⟩ := rfl

/-- C2: the bounds-checked fetch pixel_or_black returns exactly the stored
pixel value, widened to the real-valued domain, when (x, y) is inside
[0, width) x [0, height) -- the row-major offset it reads lies strictly below
the buffer length, so the fetch never reaches out of the buffer -- and returns
numeric zero for every coordinate outside that rectangle. -/
theorem pixel_or_black_bounds_spec (img : OwnedImage Int)
    (hlen : img.pixels.length = (PXdiv img.width * PXdiv img.height).toNat)
    (hwh : PXdiv img.width * PXdiv img.height < 2 ^ 64) (x y : Int) :
    ((0 ≤ x ∧ x < PXdiv img.width ∧ 0 ≤ y ∧ y < PXdiv img.height) →
      (y * PXdiv img.width + x).toNat < img.pixels.length ∧
      pixel_or_black img (PXmul x) (PXmul y) =
        ((img.pixels.getD (y * PXdiv img.width + x).toNat 0 : Int) : ℚ)) ∧
    (¬(0 ≤ x ∧ x < PXdiv img.width ∧ 0 ≤ y ∧ y < PXdiv img.height) →
      pixel_or_black img (PXmul x) (PXmul y) = 0) := by
  constructor
  · rintro ⟨hx0, hx1, hy0, hy1⟩
    obtain ⟨ho0, ho1⟩ := rowMajor_offset_lt hx0 hx1 hy0 hy1
    have hofflt : (y * PXdiv img.width + x).toNat < img.pixels.length := by
      rw [hlen]
      exact (Int.toNat_lt_toNat (lt_of_le_of_lt ho0 ho1)).mpr ho1
    refine ⟨hofflt, ?_⟩
    rw [pixel_or_black_in_bounds img (PXmul x) (PXmul y) hx0 hx1 hy0 hy1,
      owned_index_getD img x y hwh hx0 hx1 hy0 hy1]
    rfl
  · intro hnot
    apply pixel_or_black_out_of_bounds
    show x < 0 ∨ y < 0 ∨ PXdiv img.width ≤ x ∨ PXdiv img.height ≤ y
    omega

/-- Witness for pixel_or_black_bounds_spec: a concrete 2 x 2 image; the fetch
at the in-bounds coordinate (1, 1) reads offset 3, inside the 4-element
buffer, and returns the stored sample there. -/
theorem pixel_or_black_bounds_spec_witness :
    (⟨⟨2⟩, ⟨2⟩, [10, 20, 30, 40]⟩ : OwnedImage Int).pixels.length =
      (PXdiv (⟨⟨2⟩, ⟨2⟩, [10, 20, 30, 40]⟩ : OwnedImage Int).width *
        PXdiv (⟨⟨2⟩, ⟨2⟩, [10, 20, 30, 40]⟩ : OwnedImage Int).height).toNat ∧
    ((1 * PXdiv (⟨⟨2⟩, ⟨2⟩, [10, 20, 30, 40]⟩ : OwnedImage Int).width + 1).toNat <
      (⟨⟨2⟩, ⟨2⟩, [10, 20, 30, 40]⟩ : OwnedImage Int).pixels.length ∧
      pixel_or_black (⟨⟨2⟩, ⟨2⟩, [10, 20, 30, 40]⟩ : OwnedImage Int)
          (PXmul 1) (PXmul 1) =
        (((⟨⟨2⟩, ⟨2⟩, [10, 20, 30, 40]⟩ : OwnedImage Int).pixels.getD
          (1 * PXdiv (⟨⟨2⟩, ⟨2⟩, [10, 20, 30, 40]⟩ : OwnedImage Int).width + 1).toNat
          0 : Int) : ℚ)) :=
  ⟨by decide,
    (pixel_or_black_bounds_spec (⟨⟨2⟩, ⟨2⟩, [10, 20, 30, 40]⟩ : OwnedImage Int)
      (by decide) (by decide) 1 1).1 (by decide)⟩

/-- C5 counterexample: a 1 x 1 image whose buffer length equals
width x height and whose single stored pixel is the negative i16 value -5;
sampling exactly at the integer pixel center (0, 0) yields 0, not the stored
value, because the sampler clamps its result below at 0. -/
theorem identity_sample_negative_counterexample :
    (⟨⟨1⟩, ⟨1⟩, [-5]⟩ : OwnedImage Int).pixels.length =
      (PXdiv (⟨⟨1⟩, ⟨1⟩, [-5]⟩ : OwnedImage Int).width *
        PXdiv (⟨⟨1⟩, ⟨1⟩, [-5]⟩ : OwnedImage Int).height).toNat ∧
    Image.index (⟨⟨1⟩, ⟨1⟩, [-5]⟩ : OwnedImage Int) (PXmul 0, PXmul 0) = -5 ∧
    sample_image (⟨⟨1⟩, ⟨1⟩, [-5]⟩ : OwnedImage Int)
      (PXmul (0 : ℚ)) (PXmul (0 : ℚ)) = 0 := by
  refine ⟨by decide, by decide, ?_⟩
  simp only [sample_image, pixel_or_black, Image.index, Image.dimensions,
    instImageOwned, OwnedImage.index, PXdiv, PXmul, Pixel.new, isizeToUsize,
    i16Sat, f64Round, clamp]
  norm_num
  try simp
  try norm_num

/-- C5 (amended): sampling exactly at an in-bounds integer pixel center
returns the stored pixel value unchanged provided that value is nonnegative
(equivalently, within the [0, 32767] band the sampler clamps to); for
negative stored values the sampler returns the clamped value 0 instead. -/
theorem identity_sample_nonneg (img : OwnedImage Int)
    (hlen : img.pixels.length = (PXdiv img.width * PXdiv img.height).toNat)
    (hwh : PXdiv img.width * PXdiv img.height < 2 ^ 64)
    (x y : Int) (hx0 : 0 ≤ x) (hx1 : x < PXdiv img.width)
    (hy0 : 0 ≤ y) (hy1 : y < PXdiv img.height)
    (hv0 : 0 ≤ Image.index img (PXmul x, PXmul y))
    (hv1 : Image.index img (PXmul x, PXmul y) ≤ 32767) :
    sample_image img (PXmul ((x : Int) : ℚ)) (PXmul ((y : Int) : ℚ)) =
      Image.index img (PXmul x, PXmul y) := by
  have hb : bilinear img ((x : Int) : ℚ) ((y : Int) : ℚ) =
      ((Image.index img (PXmul x, PXmul y) : Int) : ℚ) := by
    unfold bilinear
    rw [Int.floor_intCast, Int.floor_intCast]
    simp only [sub_self, mul_zero, zero_mul, add_zero, mul_one, sub_zero]
    exact pixel_or_black_in_bounds img (PXmul x) (PXmul y) hx0 hx1 hy0 hy1
  have hmain : sample_image img (PXmul ((x : Int) : ℚ)) (PXmul ((y : Int) : ℚ)) =
      i16Sat (f64Round (clamp (bilinear img ((x : Int) : ℚ) ((y : Int) : ℚ)) 0 32767)) :=
    sample_image_unfold img (PXmul ((x : Int) : ℚ)) (PXmul ((y : Int) : ℚ))
  rw [hmain, hb, clamp_eq_self (by exact_mod_cast hv0) (by exact_mod_cast hv1),
    f64Round_intCast, i16Sat_eq (by omega) hv1]

/-- Witness for identity_sample_nonneg: the 3 x 3 image of zeros with 2048 at
(1, 1), sampled at (1.0, 1.0), yields the stored 2048 (the spec example). -/
theorem identity_sample_nonneg_witness :
    0 ≤ Image.index (⟨⟨3⟩, ⟨3⟩, [0, 0, 0, 0, 2048, 0, 0, 0, 0]⟩ : OwnedImage Int)
        (PXmul 1, PXmul 1) ∧
    sample_image (⟨⟨3⟩, ⟨3⟩, [0, 0, 0, 0, 2048, 0, 0, 0, 0]⟩ : OwnedImage Int)
        (PXmul ((1 : Int) : ℚ)) (PXmul ((1 : Int) : ℚ)) =
      Image.index (⟨⟨3⟩, ⟨3⟩, [0, 0, 0, 0, 2048, 0, 0, 0, 0]⟩ : OwnedImage Int)
        (PXmul 1, PXmul 1) :=
  ⟨by decide,
    identity_sample_nonneg
      (⟨⟨3⟩, ⟨3⟩, [0, 0, 0, 0, 2048, 0, 0, 0, 0]⟩ : OwnedImage Int)
      (by decide) (by decide) 1 1 (by decide) (by decide) (by decide) (by decide)
      (by decide) (by decide)⟩

/-- C4 counterexample: the expected-size computation multiplies in usize and
wraps: with 4-byte pixels and declared dimensions 1 x (2^62 + 1) -- both
within isize, so the inner cast is exact -- the expected size wraps to 4,
and a 4-byte file whose length differs from width x height x sizeof(pixel)
is accepted with the declared dimensions instead of failing with the
size-mismatch error (a debug build would panic at the multiply instead of
wrapping; either way the claimed clean size-mismatch failure does not
happen). -/
theorem map_file_overflow_counterexample :
    (List.replicate 4 (0 : Fin 256)).length ≠
      ((1 : Int) * (2 ^ 62 + 1)).toNat * 4 ∧
    MemoryMappedImage.map_file (fun _ => (0 : Int)) 4
        (.ok (List.replicate 4 (0 : Fin 256))) (PXmul 1) (PXmul (2 ^ 62 + 1)) =
      .ok ⟨PXmul 1, PXmul (2 ^ 62 + 1), [0]⟩ := by
  constructor
  · decide
  · rfl

/-- C4 (amended): whenever the declared width x height x sizeof(pixel) fits
in usize, so that the expected-size computation does not overflow, map_file
fails with the size-mismatch error whenever the mapped byte length differs
from width x height x sizeof(pixel), for every pixel type (any element size
s and decoder), returning no image in that case; when the length matches
(and the file could be opened and mapped, so bytes are available), it
succeeds with an image carrying exactly the declared dimensions.  Without
that bound the usize multiply wraps and a short file whose length equals the
wrapped size is accepted. -/
theorem map_file_size_check {α : Type} (decode : List (Fin 256) → α) (s : ℕ)
    (hs : 0 < s) (data : List (Fin 256)) (w h : Int)
    (hw : 0 ≤ w) (hh : 0 ≤ h) (hwh : w * h < 2 ^ 64)
    (hsize : (w * h).toNat * s < 2 ^ 64) :
    (data.length ≠ (w * h).toNat * s →
      MemoryMappedImage.map_file decode s (.ok data) (PXmul w) (PXmul h) =
        .error ("Unexpected size")) ∧
    (data.length = (w * h).toNat * s →
      ∃ img : MemoryMappedImage α,
        MemoryMappedImage.map_file decode s (.ok data) (PXmul w) (PXmul h) =
          .ok img ∧
        img.width = PXmul w ∧ img.height = PXmul h ∧
        img.pixels.length = (w * h).toNat) := by
  have he : isizeToUsize (PXdiv (PXmul w) * PXdiv (PXmul h)) * s % 2 ^ 64 =
      (w * h).toNat * s := by
    rw [PXdiv_PXmul, PXdiv_PXmul, isizeToUsize_eq_toNat (mul_nonneg hw hh) hwh,
      Nat.mod_eq_of_lt hsize]
  constructor
  · intro hne
    rw [map_file_eval, he, if_pos hne]
  · intro heq
    refine ⟨⟨PXmul w, PXmul h, (List.range (data.length / s)).map
      fun k => decode ((data.drop (k * s)).take s)⟩, ?_, rfl, rfl, ?_⟩
    · rw [map_file_eval, he, if_neg (fun hne => hne heq)]
    · simp only [List.length_map, List.length_range, heq]
      exact Nat.mul_div_cancel _ hs

/-- Witness for map_file_size_check: with 2-byte pixels and a declared 1 x 2
image, a 3-byte file is rejected with the size-mismatch error and a 4-byte
file is accepted with the declared dimensions. -/
theorem map_file_size_check_witness :
    ((List.replicate 3 (0 : Fin 256)).length ≠ ((1 : Int) * 2).toNat * 2 →
      MemoryMappedImage.map_file (fun _ => (0 : Int)) 2
          (.ok (List.replicate 3 (0 : Fin 256))) (PXmul 1) (PXmul 2) =
        .error ("Unexpected size")) ∧
    ((List.replicate 4 (0 : Fin 256)).length = ((1 : Int) * 2).toNat * 2 →
      ∃ img : MemoryMappedImage Int,
        MemoryMappedImage.map_file (fun _ => (0 : Int)) 2
            (.ok (List.replicate 4 (0 : Fin 256))) (PXmul 1) (PXmul 2) =
          .ok img ∧
        img.width = PXmul 1 ∧ img.height = PXmul 2 ∧
        img.pixels.length = ((1 : Int) * 2).toNat) :=
  ⟨(map_file_size_check (fun _ => (0 : Int)) 2 (by decide)
      (List.replicate 3 (0 : Fin 256)) 1 2 (by decide) (by decide) (by decide)
      (by decide)).1,
    (map_file_size_check (fun _ => (0 : Int)) 2 (by decide)
      (List.replicate 4 (0 : Fin 256)) 1 2 (by decide) (by decide) (by decide)
      (by decide)).2⟩

/-- C7: a freshly constructed owned image holds exactly w x h samples, all
equal to the numeric zero of the pixel type, so every in-bounds read of it
returns zero. -/
theorem owned_new_zero_filled {α : Type} [Zero α] [Inhabited α] (w h : Int)
    (hw : 0 ≤ w) (hh : 0 ≤ h) (hwh : w * h < 2 ^ 64) :
    (OwnedImage.new (PXmul w) (PXmul h) : OwnedImage α).pixels =
      List.replicate (w * h).toNat 0 ∧
    ∀ x y : Int, 0 ≤ x → x < w → 0 ≤ y → y < h →
      Image.index (OwnedImage.new (PXmul w) (PXmul h) : OwnedImage α)
        (PXmul x, PXmul y) = 0 := by
  have hpix : (OwnedImage.new (PXmul w) (PXmul h) : OwnedImage α).pixels =
      List.replicate (w * h).toNat 0 := by
    show List.replicate (isizeToUsize (PXdiv (PXmul w) * PXdiv (PXmul h))) 0 = _
    rw [PXdiv_PXmul, PXdiv_PXmul, isizeToUsize_eq_toNat (mul_nonneg hw hh) hwh]
  refine ⟨hpix, fun x y hx0 hx1 hy0 hy1 => ?_⟩
  obtain ⟨ho0, ho1⟩ := rowMajor_offset_lt hx0 hx1 hy0 hy1
  rw [owned_index_getD (OwnedImage.new (PXmul w) (PXmul h) : OwnedImage α)
    x y hwh hx0 hx1 hy0 hy1]
  show (OwnedImage.new (PXmul w) (PXmul h) : OwnedImage α).pixels.getD
    (y * w + x).toNat default = 0
  rw [hpix]
  have hb : (y * w + x).toNat < (List.replicate (w * h).toNat (0 : α)).length := by
    rw [List.length_replicate]
    exact (Int.toNat_lt_toNat (lt_of_le_of_lt ho0 ho1)).mpr ho1
  rw [List.getD_eq_getElem _ _ hb, List.getElem_replicate]

/-- Witness for owned_new_zero_filled: a 2 x 3 integer image. -/
theorem owned_new_zero_filled_witness :
    (0 : Int) ≤ 2 ∧
    (OwnedImage.new (PXmul 2) (PXmul 3) : OwnedImage Int).pixels =
      List.replicate ((2 : Int) * 3).toNat 0 ∧
    Image.index (OwnedImage.new (PXmul 2) (PXmul 3) : OwnedImage Int)
      (PXmul 1, PXmul 2) = 0 :=
  ⟨by decide,
    (owned_new_zero_filled 2 3 (by decide) (by decide) (by decide)).1,
    (owned_new_zero_filled 2 3 (by decide) (by decide) (by decide)).2 1 2
      (by decide) (by decide) (by decide) (by decide)⟩

/-- C8: writing v at an in-bounds (x, y) through the mutable indexing
interface and immediately reading (x, y) back returns exactly v. -/
theorem write_read_roundtrip {α : Type} [Inhabited α] (img : OwnedImage α)
    (hlen : img.pixels.length = (PXdiv img.width * PXdiv img.height).toNat)
    (hwh : PXdiv img.width * PXdiv img.height < 2 ^ 64)
    (x y : Int) (hx0 : 0 ≤ x) (hx1 : x < PXdiv img.width)
    (hy0 : 0 ≤ y) (hy1 : y < PXdiv img.height) (v : α) :
    Image.index (img.set (PXmul x, PXmul y) v) (PXmul x, PXmul y) = v := by
  obtain ⟨ho0, ho1⟩ := rowMajor_offset_lt hx0 hx1 hy0 hy1
  have hofflt : (y * PXdiv img.width + x).toNat < img.pixels.length := by
    rw [hlen]
    exact (Int.toNat_lt_toNat (lt_of_le_of_lt ho0 ho1)).mpr ho1
  show (img.pixels.set (isizeToUsize (y * PXdiv img.width + x)) v).getD
    (isizeToUsize (y * PXdiv img.width + x)) default = v
  rw [isizeToUsize_eq_toNat ho0 (lt_trans ho1 hwh)]
  rw [List.getD_eq_getElem _ _ (by rw [List.length_set]; exact hofflt)]
  exact List.getElem_set_self _

/-- Witness for write_read_roundtrip: write 77 at (1, 0) of a 2 x 2 image and
read it straight back. -/
theorem write_read_roundtrip_witness :
    (0 : Int) ≤ 1 ∧
    Image.index ((⟨⟨2⟩, ⟨2⟩, [1, 2, 3, 4]⟩ : OwnedImage Int).set
      (PXmul 1, PXmul 0) 77) (PXmul 1, PXmul 0) = 77 :=
  ⟨by decide,
    write_read_roundtrip (⟨⟨2⟩, ⟨2⟩, [1, 2, 3, 4]⟩ : OwnedImage Int)
      (by decide) (by decide) 1 0 (by decide) (by decide) (by decide) (by decide)
      77⟩

/-- C6 counterexample: with 4-byte pixels and declared dimensions
1 x (2^62 + 1), the wrapped expected size lets a 4-byte file map
successfully, producing a memory-mapped image whose buffer holds a single
pixel even though width x height is 2^62 + 1: the
buffer-length-equals-width-x-height invariant does not hold for every
successfully constructed memory-mapped image. -/
theorem mapped_image_size_invariant_counterexample :
    MemoryMappedImage.map_file (fun _ => (0 : Int)) 4
        (.ok (List.replicate 4 (0 : Fin 256))) (PXmul 1) (PXmul (2 ^ 62 + 1)) =
      .ok ⟨PXmul 1, PXmul (2 ^ 62 + 1), [0]⟩ ∧
    (⟨PXmul 1, PXmul (2 ^ 62 + 1), [0]⟩ : MemoryMappedImage Int).pixels.length ≠
      (PXdiv (⟨PXmul 1, PXmul (2 ^ 62 + 1), [0]⟩ : MemoryMappedImage Int).width *
       PXdiv (⟨PXmul 1, PXmul (2 ^ 62 + 1), [0]⟩ :
         MemoryMappedImage Int).height).toNat := by
  constructor
  · rfl
  · decide

/-- C6 (amended): the buffer of an owned image spans exactly width x height
samples -- established at construction and preserved by writing and by
fill -- and indexing at an in-bounds (x, y) reads the buffer element at the
row-major offset y x width + x (an offset strictly below the buffer length);
the same row-major indexing holds for memory-mapped images, and their
buffers also span exactly width x height samples when construction succeeds
with a declared width x height x sizeof(pixel) that fits in usize (an
overflowing declaration can map a short file successfully, leaving a buffer
shorter than width x height). -/
theorem image_buffer_invariant {α : Type} [Zero α] [Inhabited α]
    (w h : Int) (hw : 0 ≤ w) (hh : 0 ≤ h) (hwh : w * h < 2 ^ 64)
    (img : OwnedImage α)
    (hlen : img.pixels.length = (PXdiv img.width * PXdiv img.height).toNat)
    (hiw : PXdiv img.width * PXdiv img.height < 2 ^ 64)
    (x y : Int) (hx0 : 0 ≤ x) (hx1 : x < PXdiv img.width)
    (hy0 : 0 ≤ y) (hy1 : y < PXdiv img.height) (v : α)
    (mm : MemoryMappedImage α)
    (hmlen : mm.pixels.length = (PXdiv mm.width * PXdiv mm.height).toNat)
    (hmw : PXdiv mm.width * PXdiv mm.height < 2 ^ 64)
    (x2 y2 : Int) (hx20 : 0 ≤ x2) (hx21 : x2 < PXdiv mm.width)
    (hy20 : 0 ≤ y2) (hy21 : y2 < PXdiv mm.height)
    (decode : List (Fin 256) → α) (s : ℕ) (hs : 0 < s)
    (hsz : (w * h).toNat * s < 2 ^ 64)
    (data : List (Fin 256)) (mm2 : MemoryMappedImage α)
    (hmap : MemoryMappedImage.map_file decode s (.ok data) (PXmul w) (PXmul h) =
      .ok mm2) :
    (Image.pixels (OwnedImage.new (PXmul w) (PXmul h) : OwnedImage α)).length =
      (w * h).toNat ∧
    ((y * PXdiv img.width + x).toNat < (Image.pixels img).length ∧
      Image.index img (PXmul x, PXmul y) =
        (Image.pixels img).getD (y * PXdiv img.width + x).toNat default) ∧
    (img.set (PXmul x, PXmul y) v).pixels.length = img.pixels.length ∧
    (img.fill v).pixels.length = img.pixels.length ∧
    ((y2 * PXdiv mm.width + x2).toNat < (Image.pixels mm).length ∧
      Image.index mm (PXmul x2, PXmul y2) =
        (Image.pixels mm).getD (y2 * PXdiv mm.width + x2).toNat default) ∧
    mm2.width = PXmul w ∧ mm2.height = PXmul h ∧
    mm2.pixels.length = (w * h).toNat := by
  have he : isizeToUsize (PXdiv (PXmul w) * PXdiv (PXmul h)) * s % 2 ^ 64 =
      (w * h).toNat * s := by
    rw [PXdiv_PXmul, PXdiv_PXmul, isizeToUsize_eq_toNat (mul_nonneg hw hh) hwh,
      Nat.mod_eq_of_lt hsz]
  refine ⟨?_, ⟨?_, ?_⟩, ?_, ?_, ⟨?_, ?_⟩, ?_⟩
  · show (List.replicate (isizeToUsize (PXdiv (PXmul w) * PXdiv (PXmul h)))
      (0 : α)).length = (w * h).toNat
    rw [PXdiv_PXmul, PXdiv_PXmul, isizeToUsize_eq_toNat (mul_nonneg hw hh) hwh,
      List.length_replicate]
  · obtain ⟨ho0, ho1⟩ := rowMajor_offset_lt hx0 hx1 hy0 hy1
    show (y * PXdiv img.width + x).toNat < img.pixels.length
    rw [hlen]
    exact (Int.toNat_lt_toNat (lt_of_le_of_lt ho0 ho1)).mpr ho1
  · exact owned_index_getD img x y hiw hx0 hx1 hy0 hy1
  · show (img.pixels.set (isizeToUsize (y * PXdiv img.width + x)) v).length =
      img.pixels.length
    exact List.length_set img.pixels _ v
  · show (img.pixels.map fun _ => v).length = img.pixels.length
    exact List.length_map img.pixels _
  · obtain ⟨ho0, ho1⟩ := rowMajor_offset_lt hx20 hx21 hy20 hy21
    show (y2 * PXdiv mm.width + x2).toNat < mm.pixels.length
    rw [hmlen]
    exact (Int.toNat_lt_toNat (lt_of_le_of_lt ho0 ho1)).mpr ho1
  · exact mapped_index_getD mm x2 y2 hmw hx20 hx21 hy20 hy21
  · rw [map_file_eval, he] at hmap
    by_cases hc : data.length = (w * h).toNat * s
    · rw [if_neg (fun hne => hne hc)] at hmap
      injection hmap with h2
      subst h2
      refine ⟨rfl, rfl, ?_⟩
      simp only [List.length_map, List.length_range, hc]
      exact Nat.mul_div_cancel _ hs
    · rw [if_pos hc] at hmap
      exact Except.noConfusion hmap

/-- Witness for image_buffer_invariant: concrete 1 x 2 images, a write of 9
at (0, 1), and a successful 4-byte mapping with 2-byte pixels. -/
theorem image_buffer_invariant_witness :
    (Image.pixels (OwnedImage.new (PXmul 1) (PXmul 2) : OwnedImage Int)).length =
      ((1 : Int) * 2).toNat ∧
    ((1 * PXdiv (⟨⟨1⟩, ⟨2⟩, [5, 6]⟩ : OwnedImage Int).width + 0).toNat <
      (Image.pixels (⟨⟨1⟩, ⟨2⟩, [5, 6]⟩ : OwnedImage Int)).length ∧
      Image.index (⟨⟨1⟩, ⟨2⟩, [5, 6]⟩ : OwnedImage Int) (PXmul 0, PXmul 1) =
        (Image.pixels (⟨⟨1⟩, ⟨2⟩, [5, 6]⟩ : OwnedImage Int)).getD
          (1 * PXdiv (⟨⟨1⟩, ⟨2⟩, [5, 6]⟩ : OwnedImage Int).width + 0).toNat
          default) ∧
    ((⟨⟨1⟩, ⟨2⟩, [5, 6]⟩ : OwnedImage Int).set (PXmul 0, PXmul 1) 9).pixels.length =
      (⟨⟨1⟩, ⟨2⟩, [5, 6]⟩ : OwnedImage Int).pixels.length ∧
    ((⟨⟨1⟩, ⟨2⟩, [5, 6]⟩ : OwnedImage Int).fill 9).pixels.length =
      (⟨⟨1⟩, ⟨2⟩, [5, 6]⟩ : OwnedImage Int).pixels.length ∧
    ((1 * PXdiv (⟨⟨1⟩, ⟨2⟩, [7, 8]⟩ : MemoryMappedImage Int).width + 0).toNat <
      (Image.pixels (⟨⟨1⟩, ⟨2⟩, [7, 8]⟩ : MemoryMappedImage Int)).length ∧
      Image.index (⟨⟨1⟩, ⟨2⟩, [7, 8]⟩ : MemoryMappedImage Int) (PXmul 0, PXmul 1) =
        (Image.pixels (⟨⟨1⟩, ⟨2⟩, [7, 8]⟩ : MemoryMappedImage Int)).getD
          (1 * PXdiv (⟨⟨1⟩, ⟨2⟩, [7, 8]⟩ : MemoryMappedImage Int).width + 0).toNat
          default) ∧
    (⟨PXmul 1, PXmul 2, (List.range ((List.replicate 4 (0 : Fin 256)).length / 2)).map
        fun _ => ((0 : Int))⟩ : MemoryMappedImage Int).width = PXmul 1 ∧
    (⟨PXmul 1, PXmul 2, (List.range ((List.replicate 4 (0 : Fin 256)).length / 2)).map
        fun _ => ((0 : Int))⟩ : MemoryMappedImage Int).height = PXmul 2 ∧
    (⟨PXmul 1, PXmul 2, (List.range ((List.replicate 4 (0 : Fin 256)).length / 2)).map
        fun _ => ((0 : Int))⟩ : MemoryMappedImage Int).pixels.length =
      ((1 : Int) * 2).toNat :=
  image_buffer_invariant 1 2 (by decide) (by decide) (by decide)
    (⟨⟨1⟩, ⟨2⟩, [5, 6]⟩ : OwnedImage Int) (by decide) (by decide)
    0 1 (by decide) (by decide) (by decide) (by decide) 9
    (⟨⟨1⟩, ⟨2⟩, [7, 8]⟩ : MemoryMappedImage Int) (by decide) (by decide)
    0 1 (by decide) (by decide) (by decide) (by decide)
    (fun _ => (0 : Int)) 2 (by decide) (by decide)
    (List.replicate 4 (0 : Fin 256))
    (⟨PXmul 1, PXmul 2, (List.range ((List.replicate 4 (0 : Fin 256)).length / 2)).map
      fun _ => ((0 : Int))⟩ : MemoryMappedImage Int) (by rfl)

end Firkin
